import Mathlib

/-!
Shallow embedding of the `svm-rpc-latency` repository
(`src/statistics.ts` and the paired-runner revision of `src/index.ts`).

Modelling conventions:
* JavaScript numbers are modelled as exact rationals (`ℚ`).  Where a claim's
  truth depends on IEEE special values (division by zero producing
  `NaN`/`±Infinity`), the affected expression is modelled with the explicit
  `JSVal` type that carries those special values; everywhere else division is
  total rational division and cannot hit a zero denominator on the code's own
  guarded domain (noted at each definition).
* The irrational primitives `Math.sqrt`, `Math.exp` and non-integer
  `Math.pow` have no exact rational counterpart; the embedding abstracts them
  as function parameters (`RealOps`).  Theorems that depend on a property of
  `Math.sqrt` (such as `sqrt x > 0` for `x > 0`, `sqrt 0 = 0`) take that
  property as an explicit hypothesis.
* `[...values].sort((a, b) => a - b)` (ascending numeric sort) is modelled by
  `List.insertionSort (· ≤ ·)`, which produces the unique `≤`-sorted
  permutation of the input — the same list the JS sort produces.
* `xs.reduce((acc, val) => acc + val, 0)` is modelled by `List.sum`.
-/

namespace RpcLatency

/-- JavaScript number values as relevant to this program: an exact rational,
or one of the IEEE special values produced by dividing by (positive) zero.
Negative zero never arises in the modelled expressions. -/
inductive JSVal where
  | num (q : ℚ)
  | posInf
  | negInf
  | nan
deriving DecidableEq, Repr

/-- JS division, faithful to IEEE semantics on the values above
(zero denominators treated as `+0`, which is the only zero the modelled
expressions can produce). -/
def jsDiv : JSVal → JSVal → JSVal
  | .num a, .num b =>
      if b = 0 then (if a = 0 then .nan else if 0 < a then .posInf else .negInf)
      else .num (a / b)
  | .num _, .posInf => .num 0
  | .num _, .negInf => .num 0
  | .posInf, .num b => if b < 0 then .negInf else .posInf
  | .negInf, .num b => if b < 0 then .posInf else .negInf
  | .posInf, .posInf => .nan
  | .posInf, .negInf => .nan
  | .negInf, .posInf => .nan
  | .negInf, .negInf => .nan
  | .nan, _ => .nan
  | _, .nan => .nan

/-- JS multiplication on `JSVal` (IEEE rules; `∞ × 0 = NaN`). -/
def jsMul : JSVal → JSVal → JSVal
  | .num a, .num b => .num (a * b)
  | .num a, .posInf => if a = 0 then .nan else if 0 < a then .posInf else .negInf
  | .num a, .negInf => if a = 0 then .nan else if 0 < a then .negInf else .posInf
  | .posInf, .num b => if b = 0 then .nan else if 0 < b then .posInf else .negInf
  | .negInf, .num b => if b = 0 then .nan else if 0 < b then .negInf else .posInf
  | .posInf, .posInf => .posInf
  | .posInf, .negInf => .negInf
  | .negInf, .posInf => .negInf
  | .negInf, .negInf => .posInf
  | .nan, _ => .nan
  | _, .nan => .nan

/-- JS subtraction on `JSVal` (IEEE rules; `∞ − ∞ = NaN`). -/
def jsSub : JSVal → JSVal → JSVal
  | .num a, .num b => .num (a - b)
  | .num _, .posInf => .negInf
  | .num _, .negInf => .posInf
  | .posInf, .num _ => .posInf
  | .negInf, .num _ => .negInf
  | .posInf, .posInf => .nan
  | .posInf, .negInf => .posInf
  | .negInf, .posInf => .negInf
  | .negInf, .negInf => .nan
  | .nan, _ => .nan
  | _, .nan => .nan

/-- Sign of a rational: `1`, `-1`, or `0`. -/
def qSign (q : ℚ) : ℤ := if 0 < q then 1 else if q < 0 then -1 else 0

/-- Sign of a `JSVal`: `±∞` are signed, `NaN` has no sign. -/
def jsSign : JSVal → Option ℤ
  | .num q => some (qSign q)
  | .posInf => some 1
  | .negInf => some (-1)
  | .nan => none

/-- The irrational numeric primitives used by `statistics.ts`
(`Math.sqrt`, `Math.exp`, and non-integer `Math.pow`), abstracted as
parameters of the embedding. -/
structure RealOps where
  sqrt : ℚ → ℚ
  exp : ℚ → ℚ
  rpow : ℚ → ℚ → ℚ

/-- A concrete instantiation of `RealOps` used by witnesses.  Its `sqrt`
satisfies the properties theorems demand at the points where they demand
them (`0 < x → 0 < sqrt x`, `sqrt 0 = 0`). -/
def idOps : RealOps := ⟨fun x => x, fun x => x, fun x _ => x⟩

/-! ### Data model (`src/types.ts`, `TransactionResult`) -/

/-- One arm's outcome of one trial (`TransactionResult` in `types.ts`).
Optional fields of the TS interface become `Option`. -/
structure TransactionResult where
  iteration : Nat
  skipPreflight : Bool
  submissionStartMs : ℚ
  submissionEndMs : ℚ
  submissionDurationMs : ℚ
  totalDurationMs : Option ℚ
  success : Bool
  signature : Option String
  slot : Option Nat
  error : Option String
deriving DecidableEq, Repr

instance : Inhabited TransactionResult :=
  ⟨⟨0, false, 0, 0, 0, none, false, none, none, none⟩⟩

/-- `Statistics` as actually returned by `calculateStatistics`
(the fields constructed at `statistics.ts:31-40`). -/
structure Statistics where
  count : Nat
  min : ℚ
  max : ℚ
  mean : ℚ
  median : ℚ
  p95 : ℚ
  p99 : ℚ
  stdDev : ℚ
deriving DecidableEq, Repr

/-! ### `calculateStatistics` (`statistics.ts:3-41`) -/

/-- `Math.round(x * 100) / 100`.  Lean's `round` on `ℚ` is
`⌊x + 1/2⌋`, which is exactly `Math.round`'s round-half-up rule. -/
def round2 (x : ℚ) : ℚ := ((round (x * 100) : ℤ) : ℚ) / 100

/-- The nearest-rank percentile index of `statistics.ts:26-29`:
`Math.max(0, Math.ceil((p / 100) * count) - 1)`. -/
def nearestRankIdx (p : ℚ) (count : Nat) : Nat :=
  (max 0 (⌈p / 100 * (count : ℚ)⌉ - 1)).toNat

/-- `calculateStatistics` (`statistics.ts:3-41`).  `sqrt` abstracts
`Math.sqrt` (used only for `stdDev`).  The early return handles the empty
input; afterwards `count ≥ 1`, so the divisions by `count` are ordinary
rational divisions exactly as in JS. -/
def calculateStatistics (sqrt : ℚ → ℚ) (values : List ℚ) : Statistics :=
  if values.length = 0 then ⟨0, 0, 0, 0, 0, 0, 0, 0⟩
  else
    let sorted := List.insertionSort (· ≤ ·) values
    let count := sorted.length
    let sum := sorted.sum
    let mean := sum / (count : ℚ)
    let squaredDiffs := sorted.map fun val => (val - mean) ^ 2
    let variance := squaredDiffs.sum / (count : ℚ)
    let stdDev := sqrt variance
    ⟨count,
      sorted.getD 0 0,
      sorted.getD (count - 1) 0,
      round2 mean,
      sorted.getD (count / 2) 0,
      sorted.getD (nearestRankIdx 95 count) 0,
      sorted.getD (nearestRankIdx 99 count) 0,
      round2 stdDev⟩

/-! ### `welchTTest`, `cohensD` and their helpers (`statistics.ts:43-126`) -/

/-- Sample mean, `xs.reduce((a, b) => a + b, 0) / n`.  Every caller in the
source guards `n ≥ 2` (or is itself only called under that guard), so the
denominator is nonzero at every reachable call. -/
def qmean (s : List ℚ) : ℚ := s.sum / (s.length : ℚ)

/-- Sample variance (divide by `n − 1`), `statistics.ts:55-56` and `:120-121`.
Callers guard `n ≥ 2`, so the denominator is nonzero at every reachable
call. -/
def sampleVariance (s : List ℚ) : ℚ :=
  (s.map fun val => (val - qmean s) ^ 2).sum / ((s.length : ℚ) - 1)

/-- The pooled variance inside `cohensD` (`statistics.ts:123`, the argument
of `Math.sqrt`). -/
def pooledVariance (s1 s2 : List ℚ) : ℚ :=
  (((s1.length : ℚ) - 1) * sampleVariance s1 + ((s2.length : ℚ) - 1) * sampleVariance s2) /
    ((s1.length : ℚ) + (s2.length : ℚ) - 2)

/-- `incompleteBeta` (`statistics.ts:105-110`): `x^a * (1-x)^b` with
non-integer exponents, via the abstracted `Math.pow`. -/
def incompleteBeta (ops : RealOps) (a b x : ℚ) : ℚ :=
  if x ≤ 0 then 0
  else if 1 ≤ x then 1
  else ops.rpow x a * ops.rpow (1 - x) b

/-- `erf` (`statistics.ts:87-103`), the Abramowitz–Stegun five-term
polynomial approximation, with `Math.exp` abstracted. -/
def erf (ops : RealOps) (x : ℚ) : ℚ :=
  let a1 : ℚ := 0.254829592
  let a2 : ℚ := -0.284496736
  let a3 : ℚ := 1.421413741
  let a4 : ℚ := -1.453152027
  let a5 : ℚ := 1.061405429
  let p : ℚ := 0.3275911
  let sign : ℚ := if 0 ≤ x then 1 else -1
  let ax := |x|
  let t := 1 / (1 + p * ax)
  let y := 1 - (((((a5 * t + a4) * t) + a3) * t + a2) * t + a1) * t * ops.exp (-(ax * ax))
  sign * y

/-- `normalCDF` (`statistics.ts:83-85`). -/
def normalCDF (ops : RealOps) (x : ℚ) : ℚ :=
  0.5 * (1 + erf ops (x / ops.sqrt 2))

/-- `studentTCDF` (`statistics.ts:71-81`). -/
def studentTCDF (ops : RealOps) (t df : ℚ) : ℚ :=
  if 100 < df then normalCDF ops t
  else
    let x := df / (df + t * t)
    1 - 0.5 * incompleteBeta ops (df / 2) 0.5 x

/-- Result record of `welchTTest`. -/
structure TTestResult where
  tStatistic : ℚ
  pValue : ℚ
  degreesOfFreedom : ℚ
deriving DecidableEq, Repr

/-- `welchTTest` (`statistics.ts:44-68`).  Under the `n ≥ 2` guard all
denominators except the `Math.sqrt(...)` one are nonzero; that one is
rational-total here and is never the subject of a value-level claim. -/
def welchTTest (ops : RealOps) (sample1 sample2 : List ℚ) : TTestResult :=
  if sample1.length < 2 ∨ sample2.length < 2 then ⟨0, 1, 0⟩
  else
    let n1 : ℚ := sample1.length
    let n2 : ℚ := sample2.length
    let mean1 := qmean sample1
    let mean2 := qmean sample2
    let variance1 := sampleVariance sample1
    let variance2 := sampleVariance sample2
    let tStatistic := (mean1 - mean2) / ops.sqrt (variance1 / n1 + variance2 / n2)
    let df := (variance1 / n1 + variance2 / n2) ^ 2 /
      ((variance1 / n1) ^ 2 / (n1 - 1) + (variance2 / n2) ^ 2 / (n2 - 1))
    let pValue := 2 * (1 - studentTCDF ops |tStatistic| df)
    ⟨tStatistic, pValue, df⟩

/-- `cohensD` (`statistics.ts:113-126`).  The final division is the one
place in the statistics module where a zero denominator is reachable on the
guarded domain (both samples constant), so it is modelled with the explicit
JS division semantics. -/
def cohensD (ops : RealOps) (s1 s2 : List ℚ) : JSVal :=
  let pooledSD := ops.sqrt (pooledVariance s1 s2)
  jsDiv (.num (qmean s1 - qmean s2)) (.num pooledSD)

/-! ### `analyzeResults` (`statistics.ts:128-200`) -/

/-- An arm's success-filtered results, `preflight.filter(r => r.success)`. -/
def successfulResults (rs : List TransactionResult) : List TransactionResult :=
  rs.filter (·.success)

/-- An arm's successful duration sample:
`successful.map(r => r.totalDurationMs).filter(d => d !== undefined)`. -/
def successDurations (rs : List TransactionResult) : List ℚ :=
  (successfulResults rs).filterMap (·.totalDurationMs)

/-- One position's latency contribution (`statistics.ts:148-153`):
`preflightDuration − skipDuration`, pushed only when both are defined. -/
def latencyDelta (a b : TransactionResult) : Option ℚ :=
  match a.totalDurationMs, b.totalDurationMs with
  | some pd, some sd => some (pd - sd)
  | _, _ => none

/-- One position's slot contribution (`statistics.ts:155-161`):
`skipSlot − preflightSlot`, pushed only when both are defined. -/
def slotDelta (a b : TransactionResult) : Option ℚ :=
  match a.slot, b.slot with
  | some ps, some ss => some ((ss : ℚ) - (ps : ℚ))
  | _, _ => none

/-- The paired-latency loop of `statistics.ts:147-153`: positions
`0 .. min(len, len) − 1` of the two (success-filtered) lists.  The `getD`
indices are in range by the `range` bound, so the `default` fallback is
never taken. -/
def pairedLatencyDiffs (sp ss : List TransactionResult) : List ℚ :=
  (List.range (min sp.length ss.length)).filterMap fun i =>
    latencyDelta (sp.getD i default) (ss.getD i default)

/-- The slot-delta loop of `statistics.ts:155-161`. -/
def pairedSlotDiffs (sp ss : List TransactionResult) : List ℚ :=
  (List.range (min sp.length ss.length)).filterMap fun i =>
    slotDelta (sp.getD i default) (ss.getD i default)

/-- `(successCount / total) * 100` (`statistics.ts:182`, `:188`, `:194-195`),
with JS division semantics: an empty arm gives `0/0 = NaN`. -/
def successRateJS (successCount total : Nat) : JSVal :=
  jsMul (jsDiv (.num (successCount : ℚ)) (.num (total : ℚ))) (.num 100)

/-- The `statisticalTest` object of `statistics.ts:169-175`. -/
structure StatTest where
  tStatistic : ℚ
  pValue : ℚ
  degreesOfFreedom : ℚ
  effectSize : JSVal
  significant : Bool
deriving DecidableEq, Repr

/-- Per-arm block of the `analyzeResults` return value. -/
structure ArmResults where
  successCount : Nat
  failureCount : Nat
  successRate : JSVal
  totalStats : Option Statistics
deriving DecidableEq, Repr

/-- The `comparison` block of the `analyzeResults` return value. -/
structure ComparisonBlock where
  latencyDifferenceMs : Option Statistics
  successRateDifference : JSVal
  slotDifference : Option Statistics
  statisticalTest : Option StatTest
deriving DecidableEq, Repr

/-- The full `analyzeResults` return value. -/
structure AnalysisResult where
  preflightResults : ArmResults
  skipResults : ArmResults
  comparison : ComparisonBlock
deriving DecidableEq, Repr

/-- `analyzeResults` (`statistics.ts:128-200`). -/
def analyzeResults (ops : RealOps) (preflight skip : List TransactionResult) :
    AnalysisResult :=
  let successfulPreflight := successfulResults preflight
  let successfulSkip := successfulResults skip
  let totalPreflight := successDurations preflight
  let totalSkip := successDurations skip
  let totalLatencyDiff := pairedLatencyDiffs successfulPreflight successfulSkip
  let slotDiff := pairedSlotDiffs successfulPreflight successfulSkip
  let statisticalTest : Option StatTest :=
    if 2 ≤ totalPreflight.length ∧ 2 ≤ totalSkip.length then
      let tTest := welchTTest ops totalPreflight totalSkip
      let effectSize := cohensD ops totalPreflight totalSkip
      some ⟨tTest.tStatistic, tTest.pValue, tTest.degreesOfFreedom, effectSize,
        decide (tTest.pValue < 0.05)⟩
    else none
  ⟨⟨successfulPreflight.length,
      preflight.length - successfulPreflight.length,
      successRateJS successfulPreflight.length preflight.length,
      if 0 < totalPreflight.length then some (calculateStatistics ops.sqrt totalPreflight)
      else none⟩,
    ⟨successfulSkip.length,
      skip.length - successfulSkip.length,
      successRateJS successfulSkip.length skip.length,
      if 0 < totalSkip.length then some (calculateStatistics ops.sqrt totalSkip)
      else none⟩,
    ⟨(if 0 < totalLatencyDiff.length then some (calculateStatistics ops.sqrt totalLatencyDiff)
        else none),
      jsSub (successRateJS successfulPreflight.length preflight.length)
        (successRateJS successfulSkip.length skip.length),
      (if 0 < slotDiff.length then some (calculateStatistics ops.sqrt slotDiff)
        else none),
      statisticalTest⟩⟩

/-! ### `sendAndTrackTransaction` and `runSimultaneousPair`
(`src/index.ts`, paired-runner revision, lines 290-425) -/

/-- Outcome of the `sendAndConfirmTransaction` dispatch-and-confirm call:
either it resolves (wall-clock start/end and a signature), or it throws with
a message. -/
inductive DispatchOutcome where
  | ok (startMs endMs : ℚ) (signature : String)
  | err (msg : String)
deriving DecidableEq, Repr

/-- Outcome of one `connection.getTransaction` attempt in the slot-retry
loop: either it returns (carrying the `txStatus?.slot` value, `none` for a
`null` transaction or missing slot), or it throws. -/
inductive LookupAttempt where
  | ok (slot : Option Nat)
  | err (msg : String)
deriving DecidableEq, Repr

/-- The slot value the loop would record from one attempt, if any.  The
source tests `if (txStatus?.slot)` — a truthiness test, so a present slot
equal to `0` (falsy in JS) does not stop the loop either. -/
def attemptSlot : LookupAttempt → Option Nat
  | .ok (some s) => if s = 0 then none else some s
  | .ok none => none
  | .err _ => none

/-- `maxRetries` (`index.ts:329`). -/
def maxRetries : Nat := 3

/-- The retry loop `for (let attempt = 0; attempt < maxRetries; attempt++)`
(`index.ts:330-347`), instrumented: first component is the recorded slot,
second is the number of lookup attempts performed.  `fuel` is
`maxRetries − attempt`, so the recursion mirrors the loop bound exactly. -/
def resolveSlotAux (f : Nat → LookupAttempt) : Nat → Nat → Option Nat × Nat
  | _, 0 => (none, 0)
  | attempt, fuel + 1 =>
    match attemptSlot (f attempt) with
    | some s => (some s, 1)
    | none =>
      let rest := resolveSlotAux f (attempt + 1) fuel
      (rest.1, rest.2 + 1)

/-- The slot recorded by the retry loop (`result.slot` after the loop). -/
def resolveSlot (f : Nat → LookupAttempt) : Option Nat :=
  (resolveSlotAux f 0 maxRetries).1

/-- How many lookup attempts the retry loop performs. -/
def slotAttemptsUsed (f : Nat → LookupAttempt) : Nat :=
  (resolveSlotAux f 0 maxRetries).2

/-- `sendAndTrackTransaction` (`index.ts:290-353`).  On a thrown dispatch
the `catch` at `index.ts:348-350` only logs: the returned record keeps its
initial fields — in particular `error` stays absent. -/
def sendAndTrackTransaction (iteration : Nat) (skipPreflight : Bool)
    (dispatch : DispatchOutcome) (lookup : Nat → LookupAttempt) :
    TransactionResult :=
  match dispatch with
  | .err _ =>
      ⟨iteration, skipPreflight, 0, 0, 0, none, false, none, none, none⟩
  | .ok startMs endMs sig =>
      ⟨iteration, skipPreflight, startMs, endMs, endMs - startMs,
        some (endMs - startMs), true, some sig, resolveSlot lookup, none⟩

/-- A settled promise, as produced by `Promise.allSettled`. -/
inductive Settled (α : Type) where
  | fulfilled (value : α)
  | rejected (reason : String)
deriving DecidableEq, Repr

/-- `runSimultaneousPair` (`index.ts:355-425`).  Each arm's promise is the
(total) `sendAndTrackTransaction`, hence always fulfilled; the
`rejected`-branch records of `index.ts:402-410` and `:414-422` are kept in
the embedding but are unreachable.  `randomOrder` models the
`Math.random() < 0.5` draw; the swap before `allSettled` and the unswap
after are reproduced as written. -/
def runSimultaneousPair (iteration : Nat)
    (preDispatch : DispatchOutcome) (preLookup : Nat → LookupAttempt)
    (skipDispatch : DispatchOutcome) (skipLookup : Nat → LookupAttempt)
    (randomOrder : Bool) : TransactionResult × TransactionResult :=
  let preflightPromise : Settled TransactionResult :=
    .fulfilled (sendAndTrackTransaction iteration false preDispatch preLookup)
  let skipPromise : Settled TransactionResult :=
    .fulfilled (sendAndTrackTransaction iteration true skipDispatch skipLookup)
  let settledPair :=
    if randomOrder then (preflightPromise, skipPromise)
    else (skipPromise, preflightPromise)
  let preflightResult :=
    if randomOrder then settledPair.1 else settledPair.2
  let skipResult :=
    if randomOrder then settledPair.2 else settledPair.1
  let resultPreflight : TransactionResult :=
    match preflightResult with
    | .fulfilled v => v
    | .rejected reason =>
        ⟨iteration, false, 0, 0, 0, none, false, none, none, some reason⟩
  let resultSkip : TransactionResult :=
    match skipResult with
    | .fulfilled v => v
    | .rejected reason =>
        ⟨iteration, true, 0, 0, 0, none, false, none, none, some reason⟩
  (resultPreflight, resultSkip)

/-! ## Helper lemmas -/

/-- Unfolding equation for the retry loop at zero fuel. -/
lemma resolveSlotAux_zero (f : Nat → LookupAttempt) (a : Nat) :
    resolveSlotAux f a 0 = (none, 0) := rfl

/-- Unfolding equation for the retry loop at positive fuel. -/
lemma resolveSlotAux_succ (f : Nat → LookupAttempt) (a n : Nat) :
    resolveSlotAux f a (n + 1) =
      (match attemptSlot (f a) with
        | some s => (some s, 1)
        | none => ((resolveSlotAux f (a + 1) n).1, (resolveSlotAux f (a + 1) n).2 + 1)) :=
  rfl

/-! ## Claims -/

/-- Claim C7: `calculateStatistics` applied to the empty list returns a
record with `count = 0` and every other field equal to `0`, for any model
of `Math.sqrt` (the degenerate branch returns before any arithmetic). -/
theorem calculateStatistics_empty :
    ∀ sq : ℚ → ℚ, calculateStatistics sq [] = ⟨0, 0, 0, 0, 0, 0, 0, 0⟩ :=
  fun _ => rfl

/-- Claim C3: whenever either sample has fewer than 2 observations,
`welchTTest` returns exactly `{tStatistic := 0, pValue := 1,
degreesOfFreedom := 0}`, for any model of the numeric primitives. -/
theorem welchTTest_degenerate (ops : RealOps) (s1 s2 : List ℚ)
    (h : s1.length < 2 ∨ s2.length < 2) :
    welchTTest ops s1 s2 = ⟨0, 1, 0⟩ := by
  unfold welchTTest
  rw [if_pos h]

/-- Witness for C3 at a concrete degenerate input. -/
theorem welchTTest_degenerate_witness :
    (([] : List ℚ).length < 2 ∨ ([5] : List ℚ).length < 2) ∧
      welchTTest idOps [] [5] = ⟨0, 1, 0⟩ :=
  ⟨Or.inl (by decide), welchTTest_degenerate idOps [] [5] (Or.inl (by decide))⟩

/-- The transaction pair evaluated for claim C1: the preflight arm's
dispatch throws (`sendAndConfirmTransaction` rejects with a message),
the skip arm succeeds with duration `100` and a slot found on the first
lookup attempt. -/
def c1Pair : TransactionResult × TransactionResult :=
  runSimultaneousPair 7
    (.err "Transaction simulation failed") (fun _ => .err "lookup failed")
    (.ok 0 100 "sig2") (fun _ => .ok (some 5))
    true

/-- Claim C1 (code bug): a resolved outcome whose dispatch threw has
`success = false` but carries NO `error` message (the `catch` at
`index.ts:348-350` only logs it) and no `totalDurationMs` — so neither of
the two fields is present, violating the claimed exactly-one invariant
(`errorMessage` present iff not succeeded).  The sibling arm shows the
success side of the invariant behaving as claimed. -/
theorem dispatchFailure_dropsError :
    c1Pair.1.success = false ∧ c1Pair.1.error = none ∧
      c1Pair.1.totalDurationMs = none ∧
      c1Pair.2.success = true ∧ c1Pair.2.totalDurationMs = some 100 ∧
      c1Pair.2.error = none := by
  refine ⟨rfl, rfl, rfl, rfl, ?_, rfl⟩
  show some ((100 : ℚ) - 0) = some (100 : ℚ)
  norm_num

/-- Claim C9: after a successful dispatch, the slot-resolution loop of
`sendAndTrackTransaction` (`index.ts:328-347`) performs at most 3 lookup
attempts; the number of attempts is exactly `1` (resp. `2`) when the first
(resp. second) attempt yields a (truthy) token — i.e. it stops immediately
on success and never retries after it — and `3` otherwise; the recorded
slot is the first token obtained, and when all three attempts fail or
return no token the slot is absent (the if-chain collapses to
`attemptSlot (f 2) = none`) while the outcome keeps `success = true`. -/
theorem tokenRetry_bounded (f : Nat → LookupAttempt) (st en : ℚ)
    (sig : String) (it : Nat) (sp : Bool) :
    (sendAndTrackTransaction it sp (.ok st en sig) f).success = true ∧
    (sendAndTrackTransaction it sp (.ok st en sig) f).slot =
      (if (attemptSlot (f 0)).isSome then attemptSlot (f 0)
       else if (attemptSlot (f 1)).isSome then attemptSlot (f 1)
       else attemptSlot (f 2)) ∧
    slotAttemptsUsed f =
      (if (attemptSlot (f 0)).isSome then 1
       else if (attemptSlot (f 1)).isSome then 2
       else 3) ∧
    slotAttemptsUsed f ≤ 3 := by
  rcases h0 : attemptSlot (f 0) with _ | s0 <;>
    rcases h1 : attemptSlot (f 1) with _ | s1 <;>
      rcases h2 : attemptSlot (f 2) with _ | s2 <;>
        simp [sendAndTrackTransaction, resolveSlot, slotAttemptsUsed, maxRetries,
          resolveSlotAux_succ, resolveSlotAux_zero, h0, h1, h2]

/-- Indexed iteration up to the minimum length, applied to the elements at
each position, is exactly positional pairing (`zip`). -/
lemma range_min_filterMap {α β γ : Type} (g : α → β → Option γ) (d1 : α) (d2 : β) :
    ∀ (as : List α) (bs : List β),
      (List.range (min as.length bs.length)).filterMap
          (fun i => g (as.getD i d1) (bs.getD i d2)) =
        (as.zip bs).filterMap (fun ab => g ab.1 ab.2)
  | [], bs => by simp
  | a :: as, [] => by simp
  | a :: as, b :: bs => by
    have ih := range_min_filterMap g d1 d2 as bs
    simp only [List.length_cons, Nat.succ_min_succ, List.range_succ_eq_map,
      List.filterMap_cons, List.filterMap_map, Function.comp_def,
      List.getD_cons_zero, List.getD_cons_succ, List.zip_cons_cons]
    cases hg : g a b <;> simp only [hg] <;> rw [ih]

/-- Claim C5: `analyzeResults` pairs the two arms' success-filtered lists by
positional index up to the shorter length: its latency-delta sample is the
positional `zip` of the two success-filtered lists with
`preflightDuration − skipDuration` pushed when both durations are present,
and its slot-delta sample is the same `zip` with `skipSlot − preflightSlot`
pushed when both slots are present. -/
theorem pairedDeltas_positional (ops : RealOps) (p s : List TransactionResult) :
    ((analyzeResults ops p s).comparison.latencyDifferenceMs =
      (let L := ((successfulResults p).zip (successfulResults s)).filterMap
          (fun ab => latencyDelta ab.1 ab.2)
        if 0 < L.length then some (calculateStatistics ops.sqrt L) else none)) ∧
    ((analyzeResults ops p s).comparison.slotDifference =
      (let D := ((successfulResults p).zip (successfulResults s)).filterMap
          (fun ab => slotDelta ab.1 ab.2)
        if 0 < D.length then some (calculateStatistics ops.sqrt D) else none)) := by
  have e1 : pairedLatencyDiffs (successfulResults p) (successfulResults s) =
      ((successfulResults p).zip (successfulResults s)).filterMap
        (fun ab => latencyDelta ab.1 ab.2) :=
    range_min_filterMap latencyDelta default default _ _
  have e2 : pairedSlotDiffs (successfulResults p) (successfulResults s) =
      ((successfulResults p).zip (successfulResults s)).filterMap
        (fun ab => slotDelta ab.1 ab.2) :=
    range_min_filterMap slotDelta default default _ _
  constructor
  · show (if 0 < (pairedLatencyDiffs (successfulResults p) (successfulResults s)).length
        then some (calculateStatistics ops.sqrt
          (pairedLatencyDiffs (successfulResults p) (successfulResults s)))
        else none) = _
    rw [e1]
  · show (if 0 < (pairedSlotDiffs (successfulResults p) (successfulResults s)).length
        then some (calculateStatistics ops.sqrt
          (pairedSlotDiffs (successfulResults p) (successfulResults s)))
        else none) = _
    rw [e2]

/-- Claim C4: the `statisticalTest` block of `analyzeResults` is present
iff both arms have at least 2 successful observations (the successful
duration samples fed to the t-test), and when present its `significant`
field is `true` exactly when `pValue < 0.05`. -/
theorem statisticalTest_presence (ops : RealOps) (p s : List TransactionResult) :
    ((analyzeResults ops p s).comparison.statisticalTest ≠ none ↔
      2 ≤ (successDurations p).length ∧ 2 ≤ (successDurations s).length) ∧
    ∀ t : StatTest,
      (analyzeResults ops p s).comparison.statisticalTest = some t →
        (t.significant = true ↔ t.pValue < 0.05) := by
  by_cases h : 2 ≤ (successDurations p).length ∧ 2 ≤ (successDurations s).length
  · refine ⟨by simp [analyzeResults, h], fun t ht => ?_⟩
    simp only [analyzeResults, h, and_self, if_true, Option.some.injEq] at ht
    rw [← ht]
    simp [decide_eq_true_iff]
  · refine ⟨by simp [analyzeResults, h], fun t ht => ?_⟩
    simp [analyzeResults, h] at ht

/-- A successful concrete outcome used by witnesses: duration `d`, no slot. -/
def okResult (it : Nat) (sp : Bool) (d : ℚ) : TransactionResult :=
  ⟨it, sp, 0, d, d, some d, true, some "sig", none, none⟩

/-- A failed concrete outcome used by witnesses. -/
def failResult (it : Nat) (sp : Bool) : TransactionResult :=
  ⟨it, sp, 0, 0, 0, none, false, none, none, some "failed"⟩

/-- Two successful preflight-arm outcomes with durations 1 and 3. -/
def twoP : List TransactionResult := [okResult 0 false 1, okResult 1 false 3]

/-- Two successful skip-arm outcomes with durations 1 and 3. -/
def twoS : List TransactionResult := [okResult 0 true 1, okResult 1 true 3]

/-- Concrete evaluation of the statistical test on the witness inputs:
equal samples `[1, 3]` on each arm give `t = 0`, `p = 1`, `df = 2`,
effect size `0`, not significant. -/
lemma statisticalTest_twoP_twoS :
    (analyzeResults idOps twoP twoS).comparison.statisticalTest =
      some ⟨0, 1, 2, .num 0, false⟩ := by
  norm_num [analyzeResults, successfulResults, successDurations, twoP, twoS,
    okResult, welchTTest, qmean, sampleVariance, cohensD, pooledVariance,
    studentTCDF, incompleteBeta, idOps, jsDiv, List.filterMap_cons,
    List.filterMap_nil, List.filter_cons, List.filter_nil]

/-- Witness for C4: at the concrete two-success inputs the test block is
present with `pValue = 1` and `significant = false`, matching the α-rule. -/
theorem statisticalTest_presence_witness :
    (analyzeResults idOps twoP twoS).comparison.statisticalTest =
        some ⟨0, 1, 2, .num 0, false⟩ ∧
      ((⟨0, 1, 2, .num 0, false⟩ : StatTest).significant = true ↔
        (⟨0, 1, 2, .num 0, false⟩ : StatTest).pValue < 0.05) :=
  ⟨statisticalTest_twoP_twoS,
    (statisticalTest_presence idOps twoP twoS).2 ⟨0, 1, 2, .num 0, false⟩
      statisticalTest_twoP_twoS⟩

/-- Claim C6: if one arm's (non-empty) input consists only of failed
outcomes while the other arm has at least 2 successful observations, then
`analyzeResults` reports the failing arm with `successRate = num 0` and
`totalStats` absent, reports no `statisticalTest`, and the other arm's
block is exactly what `analyzeResults` computes for that arm regardless of
the failing arm's content (here: with the failing input replaced by any
other list).  Both orientations are stated. -/
theorem failingArm_isolated (ops : RealOps) (p s p2 s2 : List TransactionResult) :
    (s ≠ [] → s.filter (·.success) = [] → 2 ≤ (successDurations p).length →
      (analyzeResults ops p s).skipResults.successCount = 0 ∧
      (analyzeResults ops p s).skipResults.successRate = .num 0 ∧
      (analyzeResults ops p s).skipResults.totalStats = none ∧
      (analyzeResults ops p s).comparison.statisticalTest = none ∧
      (analyzeResults ops p s2).preflightResults =
        (analyzeResults ops p s).preflightResults) ∧
    (p ≠ [] → p.filter (·.success) = [] → 2 ≤ (successDurations s).length →
      (analyzeResults ops p s).preflightResults.successCount = 0 ∧
      (analyzeResults ops p s).preflightResults.successRate = .num 0 ∧
      (analyzeResults ops p s).preflightResults.totalStats = none ∧
      (analyzeResults ops p s).comparison.statisticalTest = none ∧
      (analyzeResults ops p2 s).skipResults =
        (analyzeResults ops p s).skipResults) := by
  constructor
  · intro hs hfail _
    have hc : successfulResults s = [] := hfail
    have hd : successDurations s = [] := by simp [successDurations, hc]
    have hlen : (s.length : ℚ) ≠ 0 := by
      simpa [List.length_eq_zero] using hs
    refine ⟨?_, ?_, ?_, ?_, rfl⟩
    · simp [analyzeResults, hc]
    · simp [analyzeResults, hc, successRateJS, jsDiv, jsMul, hlen]
    · simp [analyzeResults, hd]
    · simp [analyzeResults, hd]
  · intro hp hfail _
    have hc : successfulResults p = [] := hfail
    have hd : successDurations p = [] := by simp [successDurations, hc]
    have hlen : (p.length : ℚ) ≠ 0 := by
      simpa [List.length_eq_zero] using hp
    refine ⟨?_, ?_, ?_, ?_, rfl⟩
    · simp [analyzeResults, hc]
    · simp [analyzeResults, hc, successRateJS, jsDiv, jsMul, hlen]
    · simp [analyzeResults, hd]
    · simp [analyzeResults, hd]

/-- A single-failure skip-arm input used by witnesses. -/
def failS : List TransactionResult := [failResult 0 true]

/-- Witness for C6: preflight arm `twoP` (two successes), skip arm a single
failure. -/
theorem failingArm_isolated_witness :
    (failS ≠ [] ∧ failS.filter (·.success) = [] ∧
        2 ≤ (successDurations twoP).length) ∧
      (analyzeResults idOps twoP failS).skipResults.successCount = 0 ∧
      (analyzeResults idOps twoP failS).skipResults.successRate = .num 0 ∧
      (analyzeResults idOps twoP failS).skipResults.totalStats = none ∧
      (analyzeResults idOps twoP failS).comparison.statisticalTest = none ∧
      (analyzeResults idOps twoP twoS).preflightResults =
        (analyzeResults idOps twoP failS).preflightResults :=
  ⟨⟨by simp [failS], by simp [failS, failResult],
      by norm_num [successDurations, successfulResults, twoP, okResult,
        List.filter_cons, List.filterMap_cons]⟩,
    (failingArm_isolated idOps twoP failS [] twoS).1 (by simp [failS])
      (by simp [failS, failResult])
      (by norm_num [successDurations, successfulResults, twoP, okResult,
        List.filter_cons, List.filterMap_cons])⟩

/-- `NaN` propagates through JS subtraction (left). -/
lemma jsSub_nan_left (x : JSVal) : jsSub .nan x = .nan := by cases x <;> rfl

/-- The success-rate expression at a nonzero denominator. -/
lemma successRateJS_num (k n : Nat) (hn : n ≠ 0) :
    successRateJS k n = .num ((k : ℚ) / (n : ℚ) * 100) := by
  have h : ((n : ℚ)) ≠ 0 := Nat.cast_ne_zero.mpr hn
  simp [successRateJS, jsDiv, jsMul, h]

/-- The success-rate expression of an empty arm is `0/0 = NaN`. -/
lemma successRateJS_empty : successRateJS 0 0 = .nan := by
  norm_num [successRateJS, jsDiv, jsMul]

/-- The success-rate value of a non-empty arm is in `[0, 100]`. -/
lemma rate_bounds (rs : List TransactionResult) (hn : rs.length ≠ 0) :
    0 ≤ ((successfulResults rs).length : ℚ) / (rs.length : ℚ) * 100 ∧
      ((successfulResults rs).length : ℚ) / (rs.length : ℚ) * 100 ≤ 100 := by
  have hk : ((successfulResults rs).length : ℚ) ≤ (rs.length : ℚ) := by
    exact_mod_cast List.length_filter_le _ rs
  have hpos : (0 : ℚ) ≤ (rs.length : ℚ) := Nat.cast_nonneg _
  constructor
  · positivity
  · calc ((successfulResults rs).length : ℚ) / (rs.length : ℚ) * 100
        ≤ 1 * 100 := by
          have := div_le_one_of_le₀ hk hpos
          nlinarith
      _ = 100 := one_mul 100

/-- Claim C10: `analyzeResults` computes `successRate` by dividing by the
full input length of each arm with no emptiness guard.  For non-empty arms
both rates are genuine numbers in `[0, 100]` and the rate difference is a
genuine number in `[-100, 100]`; with an empty arm the `0/0` produces `NaN`
for that rate and for the rate difference. -/
theorem successRate_division_guard (ops : RealOps) (p s : List TransactionResult) :
    (p ≠ [] → ∃ q : ℚ,
        (analyzeResults ops p s).preflightResults.successRate = .num q ∧
          0 ≤ q ∧ q ≤ 100) ∧
    (s ≠ [] → ∃ q : ℚ,
        (analyzeResults ops p s).skipResults.successRate = .num q ∧
          0 ≤ q ∧ q ≤ 100) ∧
    (p ≠ [] → s ≠ [] → ∃ q : ℚ,
        (analyzeResults ops p s).comparison.successRateDifference = .num q ∧
          -100 ≤ q ∧ q ≤ 100) ∧
    (p = [] → (analyzeResults ops p s).preflightResults.successRate = .nan ∧
        (analyzeResults ops p s).comparison.successRateDifference = .nan) ∧
    (s = [] → (analyzeResults ops p s).skipResults.successRate = .nan ∧
        (analyzeResults ops p s).comparison.successRateDifference = .nan) := by
  refine ⟨?_, ?_, ?_, ?_, ?_⟩
  · intro hp
    have hn : p.length ≠ 0 := by simpa [List.length_eq_zero] using hp
    refine ⟨((successfulResults p).length : ℚ) / (p.length : ℚ) * 100, ?_,
      (rate_bounds p hn).1, (rate_bounds p hn).2⟩
    simp [analyzeResults, successRateJS_num _ _ hn]
  · intro hs
    have hn : s.length ≠ 0 := by simpa [List.length_eq_zero] using hs
    refine ⟨((successfulResults s).length : ℚ) / (s.length : ℚ) * 100, ?_,
      (rate_bounds s hn).1, (rate_bounds s hn).2⟩
    simp [analyzeResults, successRateJS_num _ _ hn]
  · intro hp hs
    have hnp : p.length ≠ 0 := by simpa [List.length_eq_zero] using hp
    have hns : s.length ≠ 0 := by simpa [List.length_eq_zero] using hs
    refine ⟨((successfulResults p).length : ℚ) / (p.length : ℚ) * 100 -
      ((successfulResults s).length : ℚ) / (s.length : ℚ) * 100, ?_, ?_, ?_⟩
    · simp [analyzeResults, successRateJS_num _ _ hnp, successRateJS_num _ _ hns, jsSub]
    · have b1 := (rate_bounds p hnp).1
      have b2 := (rate_bounds s hns).2
      linarith
    · have b1 := (rate_bounds p hnp).2
      have b2 := (rate_bounds s hns).1
      linarith
  · intro hp
    subst hp
    constructor
    · simp [analyzeResults, successfulResults, successRateJS_empty]
    · simp [analyzeResults, successfulResults, successRateJS_empty, jsSub_nan_left]
  · intro hs
    subst hs
    constructor
    · simp [analyzeResults, successfulResults, successRateJS_empty]
    · have : ∀ x, jsSub x .nan = .nan := fun x => by cases x <;> rfl
      simp [analyzeResults, successfulResults, successRateJS_empty, this]

/-- Witness for C10 at the concrete non-empty inputs `twoP` / `failS`. -/
theorem successRate_division_guard_witness :
    (twoP ≠ [] ∧ failS ≠ []) ∧
      (∃ q : ℚ, (analyzeResults idOps twoP failS).preflightResults.successRate = .num q ∧
        0 ≤ q ∧ q ≤ 100) ∧
      (∃ q : ℚ, (analyzeResults idOps twoP failS).skipResults.successRate = .num q ∧
        0 ≤ q ∧ q ≤ 100) ∧
      (∃ q : ℚ, (analyzeResults idOps twoP failS).comparison.successRateDifference = .num q ∧
        -100 ≤ q ∧ q ≤ 100) :=
  ⟨⟨by simp [twoP], by simp [failS]⟩,
    (successRate_division_guard idOps twoP failS).1 (by simp [twoP]),
    (successRate_division_guard idOps twoP failS).2.1 (by simp [failS]),
    (successRate_division_guard idOps twoP failS).2.2.1 (by simp [twoP])
      (by simp [failS])⟩

/-- The sample variance is nonnegative whenever the denominator is. -/
lemma sampleVariance_nonneg (s : List ℚ) (h : 2 ≤ s.length) :
    0 ≤ sampleVariance s := by
  apply div_nonneg
  · apply List.sum_nonneg
    intro x hx
    simp only [List.mem_map] at hx
    obtain ⟨y, _, rfl⟩ := hx
    positivity
  · have h2 : (2 : ℚ) ≤ (s.length : ℚ) := by exact_mod_cast h
    linarith

/-- Dividing by a positive number preserves the sign. -/
lemma qSign_div_pos (a b : ℚ) (hb : 0 < b) : qSign (a / b) = qSign a := by
  rcases lt_trichotomy 0 a with h | h | h
  · simp [qSign, h, div_pos h hb]
  · simp [qSign, ← h]
  · have hd : a / b < 0 := div_neg_of_neg_of_pos h hb
    simp [qSign, h, hd, lt_asymm h, lt_asymm hd]

/-- Counterexample to claim C8 as stated: two constant samples of length 2
with equal means.  `cohensD` computes `0 / Math.sqrt(0) = 0 / 0 = NaN`
(the abstracted `sqrt` is evaluated only at `0`, where `Math.sqrt(0) = 0`),
and `NaN` has no sign, while `mean1 − mean2 = 0` has sign zero. -/
theorem cohensD_sign_counterexample :
    jsSign (cohensD idOps [1, 1] [1, 1]) ≠
      some (qSign (qmean [1, 1] - qmean [1, 1])) := by
  norm_num [cohensD, pooledVariance, sampleVariance, qmean, idOps, jsDiv, jsSign,
    qSign]
  decide

/-- Claim C8 as amended: for samples with `n1 ≥ 2` and `n2 ≥ 2`, and any
model of `Math.sqrt` that is positive on positives and zero at zero, the
sign of `cohensD` matches the sign of `mean1 − mean2` — except in the one
case the counterexample forces: both samples constant (zero sample
variances) with equal means, where the result is `NaN` (when both samples
are constant with unequal means the result is `±Infinity`, still matching
the sign). -/
theorem cohensD_sign_amended (ops : RealOps) (s1 s2 : List ℚ)
    (hn1 : 2 ≤ s1.length) (hn2 : 2 ≤ s2.length)
    (hsq : 0 < pooledVariance s1 s2 → 0 < ops.sqrt (pooledVariance s1 s2))
    (hsq0 : ops.sqrt 0 = 0)
    (hnd : ¬(sampleVariance s1 = 0 ∧ sampleVariance s2 = 0 ∧ qmean s1 = qmean s2)) :
    jsSign (cohensD ops s1 s2) = some (qSign (qmean s1 - qmean s2)) := by
  have hv1 := sampleVariance_nonneg s1 hn1
  have hv2 := sampleVariance_nonneg s2 hn2
  have hc1 : (0 : ℚ) < (s1.length : ℚ) - 1 := by
    have : (2 : ℚ) ≤ (s1.length : ℚ) := by exact_mod_cast hn1
    linarith
  have hc2 : (0 : ℚ) < (s2.length : ℚ) - 1 := by
    have : (2 : ℚ) ≤ (s2.length : ℚ) := by exact_mod_cast hn2
    linarith
  have hden : (0 : ℚ) < (s1.length : ℚ) + (s2.length : ℚ) - 2 := by linarith
  by_cases hv : sampleVariance s1 = 0 ∧ sampleVariance s2 = 0
  · have hmd : qmean s1 - qmean s2 ≠ 0 := by
      intro h
      exact hnd ⟨hv.1, hv.2, sub_eq_zero.mp h⟩
    have hpv : pooledVariance s1 s2 = 0 := by
      simp [pooledVariance, hv.1, hv.2]
    simp only [cohensD, hpv, hsq0]
    rcases lt_trichotomy 0 (qmean s1 - qmean s2) with h | h | h
    · simp [jsDiv, jsSign, qSign, h, hmd]
    · exact absurd h.symm hmd
    · simp [jsDiv, jsSign, qSign, h, hmd, lt_asymm h]
  · have hnum : 0 < ((s1.length : ℚ) - 1) * sampleVariance s1 +
        ((s2.length : ℚ) - 1) * sampleVariance s2 := by
      rcases not_and_or.mp hv with h | h
      · have : 0 < sampleVariance s1 := lt_of_le_of_ne hv1 (Ne.symm h)
        nlinarith
      · have : 0 < sampleVariance s2 := lt_of_le_of_ne hv2 (Ne.symm h)
        nlinarith
    have hpv : 0 < pooledVariance s1 s2 := div_pos hnum hden
    have hsd := hsq hpv
    simp only [cohensD]
    simp [jsDiv, hsd.ne', jsSign, qSign_div_pos _ _ hsd]

/-- Witness for the amended C8: samples `[0, 2]` and `[0, 0]`; the first
has positive variance, `cohensD = 1`, matching the positive mean
difference. -/
theorem cohensD_sign_amended_witness :
    (2 ≤ ([0, 2] : List ℚ).length ∧ 2 ≤ ([0, 0] : List ℚ).length ∧
      (0 < pooledVariance [0, 2] [0, 0] →
        0 < idOps.sqrt (pooledVariance [0, 2] [0, 0])) ∧
      idOps.sqrt 0 = 0 ∧
      ¬(sampleVariance [0, 2] = 0 ∧ sampleVariance [0, 0] = 0 ∧
        qmean [0, 2] = qmean [0, 0])) ∧
    jsSign (cohensD idOps [0, 2] [0, 0]) = some (qSign (qmean [0, 2] - qmean [0, 0])) :=
  ⟨⟨by norm_num, by norm_num, fun h => h, rfl,
      by norm_num [sampleVariance, qmean]⟩,
    cohensD_sign_amended idOps [0, 2] [0, 0] (by norm_num) (by norm_num)
      (fun h => h) rfl (by norm_num [sampleVariance, qmean])⟩

/-- In a `≤`-sorted list, earlier in-range positions hold smaller-or-equal
values. -/
lemma sorted_getD_le (l : List ℚ) (hs : l.Sorted (· ≤ ·)) (i j : Nat)
    (hij : i ≤ j) (hj : j < l.length) : l.getD i 0 ≤ l.getD j 0 := by
  have hi : i < l.length := lt_of_le_of_lt hij hj
  rw [List.getD_eq_getElem l 0 hi, List.getD_eq_getElem l 0 hj]
  have h := hs.rel_get_of_le (a := ⟨i, hi⟩) (b := ⟨j, hj⟩) hij
  simpa [List.get_eq_getElem] using h

/-- An in-range `getD` is an element of the list. -/
lemma getD_mem_of_lt (l : List ℚ) (i : Nat) (h : i < l.length) :
    l.getD i 0 ∈ l := by
  rw [List.getD_eq_getElem l 0 h]
  exact List.getElem_mem h

/-- The nearest-rank index is in range for a non-empty sample and
`p ≤ 100`. -/
lemma nearestRankIdx_lt (p : ℚ) (n : Nat) (hp : p ≤ 100) (hn : 0 < n) :
    nearestRankIdx p n < n := by
  have h1 : p / 100 ≤ 1 := (div_le_one (by norm_num)).mpr hp
  have h2 : p / 100 * (n : ℚ) ≤ (n : ℚ) := by
    nlinarith [Nat.cast_nonneg (α := ℚ) n]
  have h3 : ⌈p / 100 * (n : ℚ)⌉ ≤ (n : ℤ) := Int.ceil_le.mpr (by push_cast; exact h2)
  have h4 : max 0 (⌈p / 100 * (n : ℚ)⌉ - 1) < (n : ℤ) :=
    max_lt (by exact_mod_cast hn) (by omega)
  have h0 : (0 : ℤ) ≤ max 0 (⌈p / 100 * (n : ℚ)⌉ - 1) := le_max_left _ _
  have h5 := (Int.toNat_lt h0).mpr h4
  simpa [nearestRankIdx] using h5

/-- The nearest-rank index is monotone in the percentile. -/
lemma nearestRankIdx_mono (p q : ℚ) (n : Nat) (hpq : p ≤ q) :
    nearestRankIdx p n ≤ nearestRankIdx q n := by
  have h1 : p / 100 * (n : ℚ) ≤ q / 100 * (n : ℚ) := by
    have hd : p / 100 ≤ q / 100 := by linarith
    nlinarith [Nat.cast_nonneg (α := ℚ) n]
  have h2 : ⌈p / 100 * (n : ℚ)⌉ ≤ ⌈q / 100 * (n : ℚ)⌉ := Int.ceil_mono h1
  unfold nearestRankIdx
  omega

/-- Claim C2: for a non-empty input and any `≤`-sorted rearrangement `l` of
it, `calculateStatistics` returns `median` equal to the sorted element at
index `⌊count/2⌋`, `p95`/`p99` equal to the sorted elements at the
nearest-rank indices `max 0 (⌈p/100·count⌉ − 1)`, and `min`/`max` equal to
the first and last sorted elements; consequently
`min ≤ median ≤ max` and `min ≤ p95 ≤ p99 ≤ max`, and each of these five
fields is an exact element of the input. -/
theorem calculateStatistics_sorted_selection (sq : ℚ → ℚ) (values l : List ℚ)
    (hne : values ≠ []) (hperm : l.Perm values) (hsort : l.Sorted (· ≤ ·)) :
    (calculateStatistics sq values).median = l.getD (values.length / 2) 0 ∧
    (calculateStatistics sq values).p95 = l.getD (nearestRankIdx 95 values.length) 0 ∧
    (calculateStatistics sq values).p99 = l.getD (nearestRankIdx 99 values.length) 0 ∧
    (calculateStatistics sq values).min = l.getD 0 0 ∧
    (calculateStatistics sq values).max = l.getD (values.length - 1) 0 ∧
    (calculateStatistics sq values).min ≤ (calculateStatistics sq values).median ∧
    (calculateStatistics sq values).median ≤ (calculateStatistics sq values).max ∧
    (calculateStatistics sq values).min ≤ (calculateStatistics sq values).p95 ∧
    (calculateStatistics sq values).p95 ≤ (calculateStatistics sq values).p99 ∧
    (calculateStatistics sq values).p99 ≤ (calculateStatistics sq values).max ∧
    (calculateStatistics sq values).median ∈ values ∧
    (calculateStatistics sq values).p95 ∈ values ∧
    (calculateStatistics sq values).p99 ∈ values ∧
    (calculateStatistics sq values).min ∈ values ∧
    (calculateStatistics sq values).max ∈ values := by
  have hn : 0 < values.length := List.length_pos.mpr hne
  have hlen0 : ¬values.length = 0 := hn.ne'
  have hsl : List.insertionSort (· ≤ ·) values = l :=
    List.eq_of_perm_of_sorted ((List.perm_insertionSort _ values).trans hperm.symm)
      (List.sorted_insertionSort _ values) hsort
  have hll : l.length = values.length := hperm.length_eq
  have hmed : (calculateStatistics sq values).median = l.getD (values.length / 2) 0 := by
    simp [calculateStatistics, hlen0, hsl, hll]
  have h95 : (calculateStatistics sq values).p95 =
      l.getD (nearestRankIdx 95 values.length) 0 := by
    simp [calculateStatistics, hlen0, hsl, hll]
  have h99 : (calculateStatistics sq values).p99 =
      l.getD (nearestRankIdx 99 values.length) 0 := by
    simp [calculateStatistics, hlen0, hsl, hll]
  have hmin : (calculateStatistics sq values).min = l.getD 0 0 := by
    simp [calculateStatistics, hlen0, hsl, hll]
  have hmax : (calculateStatistics sq values).max = l.getD (values.length - 1) 0 := by
    simp [calculateStatistics, hlen0, hsl, hll]
  have b2 : values.length / 2 < values.length := Nat.div_lt_self hn one_lt_two
  have b95 : nearestRankIdx 95 values.length < values.length :=
    nearestRankIdx_lt 95 _ (by norm_num) hn
  have b99 : nearestRankIdx 99 values.length < values.length :=
    nearestRankIdx_lt 99 _ (by norm_num) hn
  have bmono : nearestRankIdx 95 values.length ≤ nearestRankIdx 99 values.length :=
    nearestRankIdx_mono 95 99 _ (by norm_num)
  have bmax : values.length - 1 < values.length := Nat.sub_lt hn one_pos
  have sle : ∀ i j : Nat, i ≤ j → j < values.length → l.getD i 0 ≤ l.getD j 0 :=
    fun i j hij hj => sorted_getD_le l hsort i j hij (hll ▸ hj)
  have mem : ∀ i : Nat, i < values.length → l.getD i 0 ∈ values :=
    fun i hi => hperm.subset (getD_mem_of_lt l i (hll ▸ hi))
  refine ⟨hmed, h95, h99, hmin, hmax, ?_, ?_, ?_, ?_, ?_, ?_, ?_, ?_, ?_, ?_⟩
  · rw [hmin, hmed]; exact sle 0 _ (Nat.zero_le _) b2
  · rw [hmed, hmax]; exact sle _ _ (by omega) bmax
  · rw [hmin, h95]; exact sle 0 _ (Nat.zero_le _) b95
  · rw [h95, h99]; exact sle _ _ bmono b99
  · rw [h99, hmax]; exact sle _ _ (by omega) bmax
  · rw [hmed]; exact mem _ b2
  · rw [h95]; exact mem _ b95
  · rw [h99]; exact mem _ b99
  · rw [hmin]; exact mem _ hn
  · rw [hmax]; exact mem _ bmax

/-- The sample from the specification's worked example. -/
def sampleVals : List ℚ := [10, 20, 30, 40, 50]

/-- Witness for C2 at the concrete sample `[10, 20, 30, 40, 50]` (taking
the sorted rearrangement to be the list itself). -/
theorem calculateStatistics_sorted_selection_witness :
    (sampleVals ≠ [] ∧ sampleVals.Perm sampleVals ∧ sampleVals.Sorted (· ≤ ·)) ∧
    ((calculateStatistics (fun x => x) sampleVals).median =
        sampleVals.getD (sampleVals.length / 2) 0 ∧
      (calculateStatistics (fun x => x) sampleVals).p95 =
        sampleVals.getD (nearestRankIdx 95 sampleVals.length) 0 ∧
      (calculateStatistics (fun x => x) sampleVals).p99 =
        sampleVals.getD (nearestRankIdx 99 sampleVals.length) 0 ∧
      (calculateStatistics (fun x => x) sampleVals).min = sampleVals.getD 0 0 ∧
      (calculateStatistics (fun x => x) sampleVals).max =
        sampleVals.getD (sampleVals.length - 1) 0 ∧
      (calculateStatistics (fun x => x) sampleVals).min ≤
        (calculateStatistics (fun x => x) sampleVals).median ∧
      (calculateStatistics (fun x => x) sampleVals).median ≤
        (calculateStatistics (fun x => x) sampleVals).max ∧
      (calculateStatistics (fun x => x) sampleVals).min ≤
        (calculateStatistics (fun x => x) sampleVals).p95 ∧
      (calculateStatistics (fun x => x) sampleVals).p95 ≤
        (calculateStatistics (fun x => x) sampleVals).p99 ∧
      (calculateStatistics (fun x => x) sampleVals).p99 ≤
        (calculateStatistics (fun x => x) sampleVals).max ∧
      (calculateStatistics (fun x => x) sampleVals).median ∈ sampleVals ∧
      (calculateStatistics (fun x => x) sampleVals).p95 ∈ sampleVals ∧
      (calculateStatistics (fun x => x) sampleVals).p99 ∈ sampleVals ∧
      (calculateStatistics (fun x => x) sampleVals).min ∈ sampleVals ∧
      (calculateStatistics (fun x => x) sampleVals).max ∈ sampleVals) :=
  ⟨⟨by simp [sampleVals], List.Perm.refl _,
      by norm_num [sampleVals, List.sorted_cons]⟩,
    calculateStatistics_sorted_selection (fun x => x) sampleVals sampleVals
      (by simp [sampleVals]) (List.Perm.refl _)
      (by norm_num [sampleVals, List.sorted_cons])⟩

end RpcLatency
